import Mathlib

/-!
Shallow embedding of the core of the `bad-server` e-commerce backend
(session/token lifecycle, guards, order creation/numbering, denormalized
user statistics), translated from the TypeScript source under
`src/backend/src`, together with theorems settling the spec claims.
-/

namespace BadServer

/-- The error taxonomy of `src/backend/src/errors/*` (BadRequestError 400,
UnauthorizedError 401, ForbiddenError 403, NotFoundError 404,
ConflictError 409), as produced by the core operations. -/
inductive ApiError where
  | badRequest (msg : String)
  | unauthorized (msg : String)
  | forbidden (msg : String)
  | notFound (msg : String)
  | conflict (msg : String)
  deriving DecidableEq, Repr

/-- The `Role` enum from `src/backend/src/models/user.ts`. -/
inductive Role where
  | customer
  | admin
  deriving DecidableEq, Repr

/-! ## Session middleware and guards (`src/backend/src/middlewares/validations.ts`) -/

/-- A user document as the session middleware sees it: id and role list
(password excluded by the projection `{ password: 0, salt: 0 }`). -/
structure AuthUser where
  uid : Nat
  roles : List Role
  deriving DecidableEq, Repr

/-- Outcome of `jwt.verify` on an access token: success carries the `sub`
claim (the user id); failure is either expiry (`TokenExpiredError`) or any
other verification error. -/
inductive VerifyResult where
  | ok (sub : Nat)
  | expired
  | malformed
  deriving DecidableEq, Repr

/-- The check `authHeader?.startsWith('Bearer ')`, computed on the header's
character content. -/
def strStartsWith (s pre : String) : Bool :=
  s.data.take pre.data.length == pre.data

/-- The expression `authHeader.split(' ')[1]` — the token part of the Bearer header,
computed on the header's character content. -/
def bearerToken (h : String) : String :=
  String.mk (((h.data.splitOn ' ').drop 1).headD [])

/-- The `auth` middleware (validations.ts lines 173-211): requires an
`Authorization: Bearer <token>` header, verifies the access token, then
loads the user by the token subject; a verified token whose subject
matches no user yields `ForbiddenError('Нет доступа')`. `verifyTok`
abstracts `jwt.verify` with the access-token secret. -/
def auth (verifyTok : String → VerifyResult) (users : List AuthUser)
    (authHeader : Option String) : Except ApiError AuthUser :=
  match authHeader with
  | none => .error (.unauthorized "Невалидный токен")
  | some h =>
    if strStartsWith h "Bearer " then
      let aTkn := bearerToken h
      match verifyTok aTkn with
      | .expired => .error (.unauthorized "Истек срок действия токена")
      | .malformed => .error (.unauthorized "Необходима авторизация")
      | .ok sub =>
        match users.find? (fun u => u.uid == sub) with
        | none => .error (.forbidden "Нет доступа")
        | some user => .ok user
    else .error (.unauthorized "Невалидный токен")

/-- The factory `roleGuardMiddleware(...roles)` (validations.ts lines 215-232): fails
`Unauthorized` when `res.locals.user` is unset, `Forbidden` when the user
holds none of the required roles, and passes otherwise. -/
def roleGuardMiddleware (required : List Role) (ctxUser : Option AuthUser) :
    Except ApiError Unit :=
  match ctxUser with
  | none => .error (.unauthorized "Необходима авторизация")
  | some user =>
    if required.any (fun role => user.roles.contains role) then .ok ()
    else .error (.forbidden "Доступ запрещен")

/-! ## Products and order creation (`src/backend/src/controllers/order.ts`) -/

/-- A product as `createOrder` consumes it: id and nullable price
(`price: null` means "not for sale", models/product.ts). -/
structure Product where
  pid : Nat
  price : Option Int
  title : String
  deriving DecidableEq, Repr

/-- The lookup `products.find((p) => p._id.equals(id))` in `createOrder`. -/
def findProduct (products : List Product) (id : Nat) : Option Product :=
  products.find? (fun p => p.pid == id)

/-- The `items.forEach` loop of `createOrder` (order.ts lines 333-343):
resolve each item id, throwing `BadRequest` for an unknown id or a
null-priced product, and push the resolved product onto the basket. -/
def buildBasket (products : List Product) :
    List Nat → Except ApiError (List Product)
  | [] => .ok []
  | id :: rest =>
    match findProduct products id with
    | none => .error (.badRequest s!"Товар с id {id} не найден")
    | some product =>
      match product.price with
      | none => .error (.badRequest s!"Товар с id {id} не продается")
      | some _ =>
        match buildBasket products rest with
        | .error e => .error e
        | .ok basket => .ok (product :: basket)

/-- The reduction `basket.reduce((a, c) => a + c.price, 0)` — the sum of the resolved
basket prices (null prices contribute nothing; `buildBasket` has already
excluded them). -/
def basketTotal (basket : List Product) : Int :=
  basket.foldr (fun p acc => (p.price.getD 0) + acc) 0

/-- The persisted order document (models/order.ts). `orderNumber` is
`none` until the pre-save hook assigns it at first persistence. -/
structure OrderDoc where
  orderNumber : Option Nat
  status : String
  totalAmount : Int
  products : List Nat
  customer : Nat
  isNew : Bool
  deriving DecidableEq, Repr

/-- The controller `createOrder` (order.ts lines 319-372): build the basket, check the
client-declared total against the basket sum (`BadRequest('Неверная сумма
заказа')` on mismatch), otherwise construct the new order document with
`totalAmount := total`, `products := items`, `customer := userId`,
default status `new`. -/
def createOrder (products : List Product) (userId : Nat)
    (items : List Nat) (total : Int) : Except ApiError OrderDoc :=
  match buildBasket products items with
  | .error e => .error e
  | .ok basket =>
    if basketTotal basket != total then
      .error (.badRequest "Неверная сумма заказа")
    else
      .ok { orderNumber := none, status := "new", totalAmount := total,
            products := items, customer := userId, isNew := true }

/-! ## Sequence counter and the order pre-save hook
(`src/backend/src/models/counter.ts`, `src/backend/src/models/order.ts`) -/

/-- The call `Counter.findOneAndUpdate({}, { $inc: { sequenceValue: 1 } },
{ new: true, upsert: true })`: the storage layer's single atomic
increment-and-fetch on the counter document. The counter state is its
`sequenceValue` (a fresh upserted counter starts the increment from 0).
Returns the updated `sequenceValue` together with the new counter state. -/
def nextValue (sequenceValue : Nat) : Nat × Nat :=
  (sequenceValue + 1, sequenceValue + 1)

/-- The `incrementOrderNumber` pre-save hook together with persistence
(order.ts lines 81-95): only when `order.isNew` does the hook draw the
next counter value and assign `orderNumber`; a save of an already
persisted order leaves both untouched. After a save the document is no
longer new. -/
def saveOrder (order : OrderDoc) (counter : Nat) : OrderDoc × Nat :=
  if order.isNew then
    let (seq, counter') := nextValue counter
    ({ order with orderNumber := some seq, isNew := false }, counter')
  else (order, counter)

/-- Because each creation's counter access is the single atomic
`findOneAndUpdate` primitive, a concurrent execution of `n` creations is
an interleaving of `n` atomic increments, i.e. some serialization of `n`
`nextValue` calls. This runs them, collecting the handed-out numbers. -/
def runCreations : Nat → Nat → List Nat × Nat
  | 0, counter => ([], counter)
  | n + 1, counter =>
    let (seq, counter') := nextValue counter
    let (rest, counterFinal) := runCreations n counter'
    (seq :: rest, counterFinal)

/-! ## User statistics (`src/backend/src/models/user.ts`,
`src/backend/src/models/order.ts`) -/

/-- A persisted order as the statistics aggregation and the order
endpoints see it. `createdAt` is the insertion timestamp; the order
collection is kept in natural (insertion) order. -/
structure OrderRec where
  oid : Nat
  orderNumber : Nat
  status : String
  totalAmount : Int
  customer : Nat
  createdAt : Nat
  deriving DecidableEq, Repr

/-- The four denormalized statistics fields on a user document. -/
structure Stats where
  totalAmount : Int
  orderCount : Nat
  lastOrderDate : Option Nat
  lastOrder : Option Nat
  deriving DecidableEq, Repr

/-- Aggregation `$max` over the matched orders' `createdAt` (null when none). -/
def aggMax : List Nat → Option Nat
  | [] => none
  | d :: rest =>
    match aggMax rest with
    | none => some d
    | some m => some (max d m)

/-- The method `calculateOrderStats` (user.ts lines 214-246): aggregate over the
orders with `customer == user._id` in natural order — `$sum` of
`totalAmount`, `$max` of `createdAt`, `$sum: 1` count, `$last` `_id`.
With no matching orders the schema's reset branch yields `0/0/null/null`,
which this uniform definition also produces on the empty match. -/
def calculateOrderStats (uid : Nat) (orders : List OrderRec) : Stats :=
  let matched := orders.filter (fun o => o.customer == uid)
  { totalAmount := (matched.map (fun o => o.totalAmount)).sum
    orderCount := matched.length
    lastOrderDate := aggMax (matched.map (fun o => o.createdAt))
    lastOrder := (matched.getLast?).map (fun o => o.oid) }

/-- A user document restricted to the fields the order lifecycle
touches: statistics and the `orders` id list. -/
structure StatUser where
  uid : Nat
  stats : Stats
  orders : List Nat
  deriving DecidableEq, Repr

/-- Database state for the order lifecycle: the user collection and the
order collection (in insertion order). -/
structure DB where
  users : List StatUser
  orders : List OrderRec
  deriving DecidableEq, Repr

/-- Map an update over the one user with the given id. -/
def updateUser (uid : Nat) (f : StatUser → StatUser) (users : List StatUser) :
    List StatUser :=
  users.map (fun u => if u.uid == uid then f u else u)

/-- Order persistence plus the `post('save')` hook `updateUserStats`
(order.ts lines 97-103): append the new order to the collection, push its
id onto the owner's `orders` array, then `calculateOrderStats` for the
owner. -/
def persistOrder (o : OrderRec) (db : DB) : DB :=
  let orders' := db.orders ++ [o]
  { users :=
      updateUser o.customer
        (fun u => { u with orders := u.orders ++ [o.oid],
                           stats := calculateOrderStats u.uid orders' })
        db.users
    orders := orders' }

/-- The controller `deleteOrder` via `findByIdAndDelete` plus the
`post('findOneAndDelete')` hook (order.ts lines 106-110): remove the
order from the collection, `$pull` its id from the owner's `orders`
array, then `calculateOrderStats` for the owner. Fails `NotFound` when no
order has that id. -/
def deleteOrder (oid : Nat) (db : DB) : Except ApiError (OrderRec × DB) :=
  match db.orders.find? (fun o => o.oid == oid) with
  | none => .error (.notFound "Заказ по заданному id отсутствует в базе")
  | some o =>
    let orders' := db.orders.filter (fun r => r.oid != oid)
    .ok (o,
      { users :=
          updateUser o.customer
            (fun u => { u with orders := u.orders.filter (fun i => i != oid),
                               stats := calculateOrderStats u.uid orders' })
            db.users
        orders := orders' })

/-- The controller `updateOrder` (order.ts lines 376-405): `Order.findOneAndUpdate`
keyed by `orderNumber`, setting only `status`; `NotFound` when no order
has that number. `findOneAndUpdate` fires neither the save hook nor the
delete hook, so no user document is touched. -/
def updateOrderStatus (orderNumber : Nat) (status : String) (db : DB) :
    Except ApiError DB :=
  if db.orders.any (fun o => o.orderNumber == orderNumber) then
    .ok { db with
            orders := db.orders.map (fun o =>
              if o.orderNumber == orderNumber then { o with status := status }
              else o) }
  else .error (.notFound "Заказ по заданному id отсутствует в базе")

/-- The controller `getOrderCurrentUserByNumber` (order.ts lines 284-315): load the
order by number (`NotFound` when absent); when its customer is not the
requesting user, deliberately answer with the same `NotFound` instead of
`Forbidden`. -/
def getOrderCurrentUserByNumber (userId : Nat) (orderNumber : Nat)
    (orders : List OrderRec) : Except ApiError OrderRec :=
  match orders.find? (fun o => o.orderNumber == orderNumber) with
  | none => .error (.notFound "Заказ по заданному id отсутствует в базе")
  | some order =>
    if order.customer == userId then .ok order
    else .error (.notFound "Заказ по заданному id отсутствует в базе")

/-! ## Credential store and refresh-token lifecycle
(`src/backend/src/models/user.ts`, `src/backend/src/controllers/auth.ts`) -/

/-- A user as the refresh-token flow sees it: id and the stored list of
refresh-token fingerprints (`tokens: { token: string }[]`). Raw tokens
and their fingerprints are modelled as naturals. -/
structure RUser where
  uid : Nat
  tokens : List Nat
  deriving DecidableEq, Repr

/-- Failures of the refresh-token flow: the custom `ApiError` classes, or
a bare `jwt.verify` exception (which the error handler renders as a
generic 500, not as one of the custom classes). -/
inductive AuthFailure where
  | api (e : ApiError)
  | jwtError
  deriving DecidableEq, Repr

/-- The call `user.save()`: write the (possibly mutated) user document back over
the stored document with the same id. -/
def saveUser (u : RUser) (users : List RUser) : List RUser :=
  users.map (fun v => if v.uid == u.uid then u else v)

/-- The helper `deleteRefreshTokenInUser` (auth.ts lines 108-144): require the
`refreshToken` cookie (`Unauthorized` if absent), `jwt.verify` it
(`verify` abstracts verification with the refresh secret, returning the
`_id` payload), load the owning user (`Unauthorized` if none), recompute
the fingerprint (`fp` abstracts the keyed SHA-256 HMAC), filter matching
entries out of `user.tokens`, and save. Note the filter is a plain
removal: nothing checks that the fingerprint was present. -/
def deleteRefreshTokenInUser (verify : Nat → Option Nat) (fp : Nat → Nat)
    (cookie : Option Nat) (users : List RUser) :
    Except AuthFailure (RUser × List RUser) :=
  match cookie with
  | none => .error (.api (.unauthorized "Не валидный токен"))
  | some rfTkn =>
    match verify rfTkn with
    | none => .error .jwtError
    | some decodedId =>
      match users.find? (fun u => u.uid == decodedId) with
      | none => .error (.api (.unauthorized "Пользователь не найден в базе"))
      | some user =>
        let rTknHash := fp rfTkn
        let user' := { user with
                        tokens := user.tokens.filter (fun t => t != rTknHash) }
        .ok (user', saveUser user' users)

/-- The method `generateRefreshToken` (user.ts lines 160-190): sign a fresh refresh
token (`newRaw` stands for the freshly signed JWT), push its fingerprint
onto `user.tokens`, save the user, and return the raw token. -/
def generateRefreshToken (fp : Nat → Nat) (newRaw : Nat) (user : RUser)
    (users : List RUser) : Nat × RUser × List RUser :=
  let user' := { user with tokens := user.tokens ++ [fp newRaw] }
  (newRaw, user', saveUser user' users)

/-- The controller `refreshAccessToken` (auth.ts lines 168-199): remove the presented
refresh token's fingerprint via `deleteRefreshTokenInUser`, then mint and
store a new refresh token for that user. Returns the refreshed user and
the updated store. -/
def refreshAccessToken (verify : Nat → Option Nat) (fp : Nat → Nat)
    (newRaw : Nat) (cookie : Option Nat) (users : List RUser) :
    Except AuthFailure (RUser × List RUser) :=
  match deleteRefreshTokenInUser verify fp cookie users with
  | .error e => .error e
  | .ok (userWithRefreshTkn, users') =>
    let (_, user', users'') :=
      generateRefreshToken fp newRaw userWithRefreshTkn users'
    .ok (user', users'')

/-! ## Password storage and serialization (`src/backend/src/models/user.ts`) -/

/-- The full user document as stored. -/
structure UserDoc where
  docId : Nat
  name : String
  email : String
  password : String
  phone : String
  tokens : List String
  roles : List Role
  deriving DecidableEq, Repr

/-- The mutable `ret` object handed to the `toJSON` transform: every
document field, each deletable. -/
structure UserRet where
  docId : Option Nat
  name : Option String
  email : Option String
  password : Option String
  phone : Option String
  tokens : Option (List String)
  roles : Option (List Role)
  deriving DecidableEq, Repr

/-- The plain object `ret` before the transform runs: all fields present. -/
def retOfDoc (u : UserDoc) : UserRet :=
  { docId := some u.docId, name := some u.name, email := some u.email,
    password := some u.password, phone := some u.phone,
    tokens := some u.tokens, roles := some u.roles }

/-- The `toJSON` transform (user.ts lines 108-121): `delete ret.tokens;
delete ret.password; delete ret._id; delete ret.roles`. -/
def toJSONTransform (ret : UserRet) : UserRet :=
  { ret with tokens := none, password := none, docId := none, roles := none }

/-- Serializing a user document: build `ret` and apply the transform. -/
def userToJSON (u : UserDoc) : UserRet :=
  toJSONTransform (retOfDoc u)

/-- The `hashingPassword` pre-save hook (user.ts lines 127-138): when the
password path is modified, replace it by its bcrypt hash (`bcryptHash`
abstracts `bcrypt.hash` with the configured salt rounds); otherwise leave
the document alone. -/
def hashingPassword (bcryptHash : String → String)
    (isModifiedPassword : Bool) (u : UserDoc) : UserDoc :=
  if isModifiedPassword then { u with password := bcryptHash u.password }
  else u

/-! ## Auxiliary definitions for the theorems -/

/-- Iterate `saveOrder` (re-persisting the same document) `n` more times. -/
def saveOrderTimes : Nat → OrderDoc × Nat → OrderDoc × Nat
  | 0, s => s
  | n + 1, s => saveOrderTimes n (saveOrder s.1 s.2)

/-- Forget an order's `status` field (for stating that a status-only
update changes nothing else). -/
def eraseStatus (o : OrderRec) : OrderRec :=
  { o with status := "" }

/-- A concrete instantiation of `jwt.verify` with the refresh secret, for
evaluating the refresh-token flow on concrete inputs: raw tokens 10, 20
and 30 are valid signed tokens for user 1; everything else fails. -/
def verifyC : Nat → Option Nat := fun t =>
  if t = 10 then some 1
  else if t = 20 then some 1
  else if t = 30 then some 1 else none

/-- A concrete instantiation of the deterministic keyed-hash fingerprint
for evaluating the refresh-token flow on concrete inputs. -/
def fpC : Nat → Nat := fun t => t + 100

/-! # Theorems -/

/-- C7: a request to a role-guarded route fails `Unauthorized` when not
authenticated, fails `Forbidden` when the authenticated user holds none
of the required roles, and passes when the user holds at least one
required role. -/
theorem C7_roleGuard (required : List Role) (u : AuthUser) :
    roleGuardMiddleware required none
      = .error (.unauthorized "Необходима авторизация")
    ∧ ((∀ r ∈ required, r ∉ u.roles) →
        roleGuardMiddleware required (some u)
          = .error (.forbidden "Доступ запрещен"))
    ∧ ((∃ r ∈ required, r ∈ u.roles) →
        roleGuardMiddleware required (some u) = .ok ()) := by
  have hsome : roleGuardMiddleware required (some u)
      = if required.any (fun role => u.roles.contains role) then .ok ()
        else .error (.forbidden "Доступ запрещен") := rfl
  refine ⟨rfl, ?_, ?_⟩
  · intro h
    have hany : (required.any fun role => u.roles.contains role) = false := by
      rw [Bool.eq_false_iff]
      intro hc
      rw [List.any_eq_true] at hc
      obtain ⟨r, hr, hmem⟩ := hc
      exact h r hr (by simpa using hmem)
    rw [hsome, hany]
    rfl
  · intro ⟨r, hr, hmem⟩
    have hany : (required.any fun role => u.roles.contains role) = true := by
      rw [List.any_eq_true]
      exact ⟨r, hr, by simpa using hmem⟩
    rw [hsome, hany]
    rfl

/-- Witness for C7 at the spec's example: an admin-only route denies an
unauthenticated request with `Unauthorized`, denies a `{customer}` user
with `Forbidden`, and lets an `{admin}` user through. -/
theorem C7_roleGuard_witness :
    roleGuardMiddleware [Role.admin] none
      = .error (.unauthorized "Необходима авторизация")
    ∧ roleGuardMiddleware [Role.admin] (some ⟨1, [Role.customer]⟩)
      = .error (.forbidden "Доступ запрещен")
    ∧ roleGuardMiddleware [Role.admin] (some ⟨2, [Role.admin]⟩) = .ok () :=
  ⟨(C7_roleGuard [Role.admin] ⟨1, [Role.customer]⟩).1,
   (C7_roleGuard [Role.admin] ⟨1, [Role.customer]⟩).2.1 (by decide),
   (C7_roleGuard [Role.admin] ⟨2, [Role.admin]⟩).2.2 ⟨Role.admin, by simp⟩⟩

/-- C10: when the Bearer access token verifies but its subject matches no
stored user, the `auth` middleware fails with `Forbidden` (`'Нет
доступа'`) — neither `Unauthorized` nor `NotFound`. -/
theorem C10_auth_unknown_subject (verifyTok : String → VerifyResult)
    (users : List AuthUser) (h : String) (sub : Nat)
    (hBearer : strStartsWith h "Bearer " = true)
    (hVerify : verifyTok (bearerToken h) = .ok sub)
    (hNoUser : users.find? (fun u => u.uid == sub) = none) :
    auth verifyTok users (some h) = .error (.forbidden "Нет доступа") := by
  simp only [auth, hBearer, if_true, hVerify, hNoUser]

/-- Witness for C10: a concrete verifier accepting the token `"tok"` with
subject 5, an empty user collection, header `"Bearer tok"`. -/
theorem C10_auth_unknown_subject_witness :
    auth (fun t => if t = "tok" then .ok 5 else .malformed) []
      (some "Bearer tok") = .error (.forbidden "Нет доступа") :=
  C10_auth_unknown_subject (fun t => if t = "tok" then .ok 5 else .malformed)
    [] "Bearer tok" 5 (by decide) (by decide) rfl

/-- C6: when the order with the requested number exists but belongs to a
different customer, `getOrderCurrentUserByNumber` answers with the same
`NotFound` it gives when no such order exists at all — indistinguishable
from non-existence, and not `Forbidden`. -/
theorem C6_owner_scope_not_found (orders : List OrderRec) (uid n : Nat)
    (o : OrderRec)
    (hFind : orders.find? (fun r => r.orderNumber == n) = some o)
    (hOther : o.customer ≠ uid) :
    getOrderCurrentUserByNumber uid n orders
      = .error (.notFound "Заказ по заданному id отсутствует в базе")
    ∧ getOrderCurrentUserByNumber uid n orders
      = getOrderCurrentUserByNumber uid n [] := by
  have hbeq : (o.customer == uid) = false := by
    simpa using hOther
  constructor
  · simp [getOrderCurrentUserByNumber, hFind, hbeq]
  · simp [getOrderCurrentUserByNumber, hFind, hbeq]

/-- Witness for C6: user 3 requests order number 7, which exists and
belongs to user 2. -/
theorem C6_owner_scope_not_found_witness :
    getOrderCurrentUserByNumber 3 7 [⟨1, 7, "new", 100, 2, 0⟩]
      = .error (.notFound "Заказ по заданному id отсутствует в базе")
    ∧ getOrderCurrentUserByNumber 3 7 [⟨1, 7, "new", 100, 2, 0⟩]
      = getOrderCurrentUserByNumber 3 7 [] :=
  C6_owner_scope_not_found [⟨1, 7, "new", 100, 2, 0⟩] 3 7
    ⟨1, 7, "new", 100, 2, 0⟩ (by decide) (by decide)

/-- Any serialization of `n` atomic increment-and-fetch operations from
counter value `c` hands out exactly `c+1, …, c+n` and leaves the counter
at `c+n`. -/
theorem runCreations_eq (n c : Nat) :
    runCreations n c = (List.range' (c + 1) n, c + n) := by
  induction n generalizing c with
  | zero => simp [runCreations]
  | succ n ih =>
    simp only [runCreations, nextValue, ih]
    rw [List.range'_succ]
    refine Prod.ext rfl ?_
    simp
    omega

/-- C5: `n` concurrent order creations — i.e. any interleaving of their
atomic counter increments — receive `n` pairwise-distinct order numbers,
and starting from a fresh counter they receive exactly `1..n`. -/
theorem C5_distinct_order_numbers (n c : Nat) :
    (runCreations n c).1.Nodup
    ∧ (runCreations n c).1.length = n
    ∧ (runCreations n 0).1 = List.range' 1 n := by
  refine ⟨?_, ?_, ?_⟩
  · rw [runCreations_eq]
    exact List.nodup_range' ..
  · rw [runCreations_eq]
    exact List.length_range' ..
  · rw [runCreations_eq]

/-- An already persisted order document is left completely unchanged by
further saves: the pre-save hook only fires on `isNew`. -/
theorem saveOrderTimes_stable (n : Nat) (o : OrderDoc) (c : Nat)
    (h : o.isNew = false) : saveOrderTimes n (o, c) = (o, c) := by
  induction n with
  | zero => rfl
  | succ n ih => simpa [saveOrderTimes, saveOrder, h] using ih

/-- C4: the order number is assigned exactly once, at the order's first
persistence (to the next counter value), and no later save of that order
ever changes it (nor anything else about the persisted document). -/
theorem C4_orderNumber_immutable (o : OrderDoc) (c : Nat)
    (hnew : o.isNew = true) (n : Nat) :
    (saveOrder o c).1.orderNumber = some (c + 1)
    ∧ (saveOrder o c).1.isNew = false
    ∧ saveOrderTimes n (saveOrder o c) = saveOrder o c
    ∧ (saveOrderTimes n (saveOrder o c)).1.orderNumber = some (c + 1) := by
  have h1 : saveOrder o c
      = ({ o with orderNumber := some (c + 1), isNew := false }, c + 1) := by
    simp [saveOrder, hnew, nextValue]
  refine ⟨by rw [h1], by rw [h1], ?_, ?_⟩
  · rw [h1]
    exact saveOrderTimes_stable n _ _ rfl
  · rw [h1, saveOrderTimes_stable n _ _ rfl]

/-- Witness for C4: a fresh order saved once gets number 1 from a fresh
counter, and three further saves leave it untouched. -/
theorem C4_orderNumber_immutable_witness :
    (saveOrder ⟨none, "new", 100, [1], 2, true⟩ 0).1.orderNumber = some 1
    ∧ (saveOrder ⟨none, "new", 100, [1], 2, true⟩ 0).1.isNew = false
    ∧ saveOrderTimes 3 (saveOrder ⟨none, "new", 100, [1], 2, true⟩ 0)
        = saveOrder ⟨none, "new", 100, [1], 2, true⟩ 0
    ∧ (saveOrderTimes 3
        (saveOrder ⟨none, "new", 100, [1], 2, true⟩ 0)).1.orderNumber
        = some 1 :=
  C4_orderNumber_immutable ⟨none, "new", 100, [1], 2, true⟩ 0 rfl 3

/-- C9: a status-only order update leaves every user document — and with
it the owner's statistics fields and order list — untouched, and changes
nothing about any order except its status; statistics recomputation is
written to the owner exactly by order creation (`persistOrder`, the save
hook) and permanent deletion (`deleteOrder`, the delete hook). -/
theorem C9_status_update_frame (db db' : DB) (n : Nat) (s : String)
    (h : updateOrderStatus n s db = .ok db') :
    db'.users = db.users
    ∧ db'.orders.map eraseStatus = db.orders.map eraseStatus
    ∧ (∀ (o : OrderRec) (db0 : DB) (u : StatUser), u ∈ db0.users →
        u.uid = o.customer →
        { u with orders := u.orders ++ [o.oid],
                 stats := calculateOrderStats u.uid (db0.orders ++ [o]) }
          ∈ (persistOrder o db0).users)
    ∧ (∀ (oid : Nat) (db0 db1 : DB) (o : OrderRec) (u : StatUser),
        deleteOrder oid db0 = .ok (o, db1) → u ∈ db0.users →
        u.uid = o.customer →
        { u with orders := u.orders.filter (fun i => i != oid),
                 stats := calculateOrderStats u.uid
                   (db0.orders.filter (fun r => r.oid != oid)) }
          ∈ db1.users) := by
  unfold updateOrderStatus at h
  split at h
  case isFalse => exact absurd h (by simp)
  case isTrue =>
    injection h with h
    subst h
    refine ⟨rfl, ?_, ?_, ?_⟩
    · rw [List.map_map]
      refine List.map_congr_left ?_
      intro o _
      simp only [Function.comp_apply]
      split <;> rfl
    · intro o db0 u hu huid
      have hmem := List.mem_map_of_mem
        (fun v => if v.uid == o.customer then
          { v with orders := v.orders ++ [o.oid],
                   stats := calculateOrderStats v.uid (db0.orders ++ [o]) }
          else v) hu
      simpa [persistOrder, updateUser, huid] using hmem
    · intro oid db0 db1 o u hdel hu huid
      unfold deleteOrder at hdel
      cases hfind : db0.orders.find? (fun r => r.oid == oid) with
      | none => rw [hfind] at hdel; exact absurd hdel (by simp)
      | some o₂ =>
        rw [hfind] at hdel
        injection hdel with hdel
        rw [Prod.mk.injEq] at hdel
        obtain ⟨ho, hdb⟩ := hdel
        subst hdb
        rw [← ho] at huid
        have hmem := List.mem_map_of_mem
          (fun v => if v.uid == o₂.customer then
            { v with orders := v.orders.filter (fun i => i != oid),
                     stats := calculateOrderStats v.uid
                       (db0.orders.filter (fun r => r.oid != oid)) }
            else v) hu
        simpa [updateUser, huid] using hmem

/-- Witness for C9: setting order 7's status to `delivering` leaves the
owner's user document and every non-status order field unchanged. -/
theorem C9_status_update_frame_witness :
    (DB.mk [⟨2, ⟨100, 1, some 0, some 1⟩, [1]⟩]
        [⟨1, 7, "delivering", 100, 2, 0⟩]).users
      = (DB.mk [⟨2, ⟨100, 1, some 0, some 1⟩, [1]⟩]
          [⟨1, 7, "new", 100, 2, 0⟩]).users
    ∧ (DB.mk [⟨2, ⟨100, 1, some 0, some 1⟩, [1]⟩]
        [⟨1, 7, "delivering", 100, 2, 0⟩]).orders.map eraseStatus
      = (DB.mk [⟨2, ⟨100, 1, some 0, some 1⟩, [1]⟩]
          [⟨1, 7, "new", 100, 2, 0⟩]).orders.map eraseStatus :=
  ⟨(C9_status_update_frame _ _ 7 "delivering" (by rfl)).1,
   (C9_status_update_frame _ _ 7 "delivering" (by rfl)).2.1⟩

/-- C3: starting from statistics derived from the user's current orders,
creating an order `o` for the user makes the recomputed statistics show
one more order, the prior total plus `o.totalAmount`, and `o` as the last
order; permanently deleting `o` afterwards restores the order collection
and hence the recomputed statistics exactly. -/
theorem C3_stats_round_trip (db : DB) (u : StatUser) (o : OrderRec)
    (hderiv : u.stats = calculateOrderStats u.uid db.orders)
    (hcust : o.customer = u.uid)
    (hfresh : ∀ r ∈ db.orders, r.oid ≠ o.oid) :
    (calculateOrderStats u.uid (persistOrder o db).orders).orderCount
      = u.stats.orderCount + 1
    ∧ (calculateOrderStats u.uid (persistOrder o db).orders).totalAmount
      = u.stats.totalAmount + o.totalAmount
    ∧ (calculateOrderStats u.uid (persistOrder o db).orders).lastOrder
      = some o.oid
    ∧ ∃ db', deleteOrder o.oid (persistOrder o db) = .ok (o, db')
        ∧ db'.orders = db.orders
        ∧ calculateOrderStats u.uid db'.orders = u.stats := by
  have horders : (persistOrder o db).orders = db.orders ++ [o] := rfl
  have hbeq : (o.customer == u.uid) = true := by simpa using hcust
  have hfilter : (db.orders ++ [o]).filter (fun r => r.customer == u.uid)
      = db.orders.filter (fun r => r.customer == u.uid) ++ [o] := by
    rw [List.filter_append]
    simp [List.filter, hbeq]
  have hrestore : (db.orders ++ [o]).filter (fun r => r.oid != o.oid)
      = db.orders := by
    rw [List.filter_append]
    have h1 : db.orders.filter (fun r => r.oid != o.oid) = db.orders :=
      List.filter_eq_self.mpr (fun r hr => bne_iff_ne.mpr (hfresh r hr))
    have h2 : [o].filter (fun r => r.oid != o.oid) = [] := by
      simp [List.filter]
    rw [h1, h2, List.append_nil]
  refine ⟨?_, ?_, ?_, ?_⟩
  · rw [horders]
    show ((db.orders ++ [o]).filter (fun r => r.customer == u.uid)).length
      = u.stats.orderCount + 1
    rw [hfilter, List.length_append, hderiv]
    rfl
  · rw [horders]
    show (((db.orders ++ [o]).filter
        (fun r => r.customer == u.uid)).map (fun r => r.totalAmount)).sum
      = u.stats.totalAmount + o.totalAmount
    rw [hfilter, List.map_append, List.sum_append, hderiv]
    simp [calculateOrderStats]
  · rw [horders]
    show (((db.orders ++ [o]).filter
        (fun r => r.customer == u.uid)).getLast?).map (fun r => r.oid)
      = some o.oid
    rw [hfilter, List.getLast?_concat]
    rfl
  · have hfind : (db.orders ++ [o]).find? (fun r => r.oid == o.oid)
        = some o := by
      rw [List.find?_append]
      have h1 : db.orders.find? (fun r => r.oid == o.oid) = none :=
        List.find?_eq_none.mpr (fun r hr => by
          simpa using hfresh r hr)
      rw [h1]
      simp [List.find?]
    have hdel0 : deleteOrder o.oid (persistOrder o db) = .ok (o,
        { users := updateUser o.customer
            (fun v => { v with
              orders := v.orders.filter (fun i => i != o.oid),
              stats := calculateOrderStats v.uid
                ((db.orders ++ [o]).filter (fun r => r.oid != o.oid)) })
            (persistOrder o db).users,
          orders := (db.orders ++ [o]).filter (fun r => r.oid != o.oid) })
        := by
      unfold deleteOrder
      rw [horders, hfind]
    rw [hrestore] at hdel0
    exact ⟨_, hdel0, rfl, hderiv.symm⟩

/-- Witness for C3: user 2 has one order (total 100); creating order 5
for 50 yields recomputed stats count 2, total 150, last order 5. -/
theorem C3_stats_round_trip_witness :
    (calculateOrderStats 2 (persistOrder ⟨5, 8, "new", 50, 2, 3⟩
        (DB.mk [⟨2, ⟨100, 1, some 0, some 1⟩, [1]⟩]
          [⟨1, 7, "new", 100, 2, 0⟩])).orders).orderCount = 1 + 1
    ∧ (calculateOrderStats 2 (persistOrder ⟨5, 8, "new", 50, 2, 3⟩
        (DB.mk [⟨2, ⟨100, 1, some 0, some 1⟩, [1]⟩]
          [⟨1, 7, "new", 100, 2, 0⟩])).orders).totalAmount = 100 + 50
    ∧ (calculateOrderStats 2 (persistOrder ⟨5, 8, "new", 50, 2, 3⟩
        (DB.mk [⟨2, ⟨100, 1, some 0, some 1⟩, [1]⟩]
          [⟨1, 7, "new", 100, 2, 0⟩])).orders).lastOrder = some 5 :=
  ⟨(C3_stats_round_trip (DB.mk [⟨2, ⟨100, 1, some 0, some 1⟩, [1]⟩]
      [⟨1, 7, "new", 100, 2, 0⟩]) ⟨2, ⟨100, 1, some 0, some 1⟩, [1]⟩
      ⟨5, 8, "new", 50, 2, 3⟩ (by decide) rfl (by decide)).1,
   (C3_stats_round_trip (DB.mk [⟨2, ⟨100, 1, some 0, some 1⟩, [1]⟩]
      [⟨1, 7, "new", 100, 2, 0⟩]) ⟨2, ⟨100, 1, some 0, some 1⟩, [1]⟩
      ⟨5, 8, "new", 50, 2, 3⟩ (by decide) rfl (by decide)).2.1,
   (C3_stats_round_trip (DB.mk [⟨2, ⟨100, 1, some 0, some 1⟩, [1]⟩]
      [⟨1, 7, "new", 100, 2, 0⟩]) ⟨2, ⟨100, 1, some 0, some 1⟩, [1]⟩
      ⟨5, 8, "new", 50, 2, 3⟩ (by decide) rfl (by decide)).2.2.1⟩

/-- Every failure of the basket-building loop is a `BadRequest`. -/
theorem buildBasket_error_badRequest (ps : List Product) :
    ∀ (items : List Nat) (e : ApiError),
      buildBasket ps items = .error e → ∃ msg, e = .badRequest msg := by
  intro items
  induction items with
  | nil => intro e h; exact absurd h (by simp [buildBasket])
  | cons id rest ih =>
    intro e h
    unfold buildBasket at h
    cases hfp : findProduct ps id with
    | none =>
      simp only [hfp] at h
      injection h with h
      exact ⟨_, h.symm⟩
    | some p =>
      simp only [hfp] at h
      cases hpr : p.price with
      | none =>
        simp only [hpr] at h
        injection h with h
        exact ⟨_, h.symm⟩
      | some v =>
        simp only [hpr] at h
        cases hbb : buildBasket ps rest with
        | error e' =>
          simp only [hbb] at h
          injection h with h
          exact h ▸ ih e' hbb
        | ok b =>
          simp only [hbb] at h
          exact absurd h (by simp)

/-- The basket-building loop fails exactly when some item id resolves to
no product or to a null-priced product. -/
theorem buildBasket_error_iff (ps : List Product) (items : List Nat) :
    (∃ e, buildBasket ps items = .error e) ↔
      (∃ id ∈ items, findProduct ps id = none)
      ∨ (∃ id ∈ items, ∃ p, findProduct ps id = some p ∧ p.price = none) := by
  induction items with
  | nil => simp [buildBasket]
  | cons id rest ih =>
    constructor
    · rintro ⟨e, h⟩
      unfold buildBasket at h
      cases hfp : findProduct ps id with
      | none => exact .inl ⟨id, List.mem_cons_self .., hfp⟩
      | some p =>
        simp only [hfp] at h
        cases hpr : p.price with
        | none =>
          exact .inr ⟨id, List.mem_cons_self .., p, hfp, hpr⟩
        | some v =>
          simp only [hpr] at h
          cases hbb : buildBasket ps rest with
          | error e' =>
            rcases ih.mp ⟨e', hbb⟩ with ⟨i, hi, hfi⟩ | ⟨i, hi, q, hfi, hq⟩
            · exact .inl ⟨i, List.mem_cons_of_mem _ hi, hfi⟩
            · exact .inr ⟨i, List.mem_cons_of_mem _ hi, q, hfi, hq⟩
          | ok b =>
            simp only [hbb] at h
            exact absurd h (by simp)
    · intro hdisj
      cases hfp : findProduct ps id with
      | none =>
        refine ⟨.badRequest s!"Товар с id {id} не найден", ?_⟩
        unfold buildBasket
        simp only [hfp]
      | some p =>
        cases hpr : p.price with
        | none =>
          refine ⟨.badRequest s!"Товар с id {id} не продается", ?_⟩
          unfold buildBasket
          simp only [hfp, hpr]
        | some v =>
          have hrest : ∃ e', buildBasket ps rest = .error e' := by
            apply ih.mpr
            rcases hdisj with ⟨i, hi, hfi⟩ | ⟨i, hi, q, hfi, hq⟩
            · rcases List.mem_cons.mp hi with hie | hir
              · rw [hie] at hfi; rw [hfi] at hfp; exact absurd hfp
                  (by simp)
              · exact .inl ⟨i, hir, hfi⟩
            · rcases List.mem_cons.mp hi with hie | hir
              · rw [hie] at hfi
                rw [hfi] at hfp
                injection hfp with hfp
                rw [← hfp] at hpr
                rw [hpr] at hq
                exact absurd hq (by simp)
              · exact .inr ⟨i, hir, q, hfi, hq⟩
          obtain ⟨e', hbb⟩ := hrest
          refine ⟨e', ?_⟩
          unfold buildBasket
          simp only [hfp, hpr, hbb]

/-- C2: order creation is rejected — always with `BadRequest` — exactly
when some item id is unknown, some resolved product is null-priced, or
the resolved basket's price sum differs from the client-declared total;
otherwise an order with the declared total, the items, the customer and
default status `new` is created. -/
theorem C2_create_order_validation (ps : List Product) (userId : Nat)
    (items : List Nat) (total : Int) :
    ((∃ e, createOrder ps userId items total = .error e) ↔
      ((∃ id ∈ items, findProduct ps id = none)
       ∨ (∃ id ∈ items, ∃ p, findProduct ps id = some p ∧ p.price = none)
       ∨ (∃ basket, buildBasket ps items = .ok basket
            ∧ basketTotal basket ≠ total)))
    ∧ (∀ e, createOrder ps userId items total = .error e →
        ∃ msg, e = .badRequest msg)
    ∧ (∀ order, createOrder ps userId items total = .ok order →
        order = { orderNumber := none, status := "new", totalAmount := total,
                  products := items, customer := userId, isNew := true }) := by
  cases hbb : buildBasket ps items with
  | error e' =>
    have hco : createOrder ps userId items total = .error e' := by
      unfold createOrder
      simp only [hbb]
    refine ⟨?_, ?_, ?_⟩
    · constructor
      · intro _
        rcases (buildBasket_error_iff ps items).mp ⟨e', hbb⟩ with h1 | h2
        · exact .inl h1
        · exact .inr (.inl h2)
      · intro _
        exact ⟨e', hco⟩
    · intro e h
      rw [hco] at h
      injection h with h
      exact h ▸ buildBasket_error_badRequest ps items e' hbb
    · intro order h
      rw [hco] at h
      exact absurd h (by simp)
  | ok b =>
    have hnotbad : ¬ ((∃ id ∈ items, findProduct ps id = none)
        ∨ (∃ id ∈ items, ∃ p, findProduct ps id = some p
            ∧ p.price = none)) := by
      intro hcontra
      obtain ⟨e', hbb'⟩ := (buildBasket_error_iff ps items).mpr hcontra
      rw [hbb] at hbb'
      exact absurd hbb' (by simp)
    by_cases htot : basketTotal b = total
    · have hfalse : (basketTotal b != total) = false := by
        simp [htot]
      have hco : createOrder ps userId items total
          = .ok { orderNumber := none, status := "new", totalAmount := total,
                  products := items, customer := userId, isNew := true } := by
        unfold createOrder
        simp only [hbb, hfalse]
        rfl
      refine ⟨?_, ?_, ?_⟩
      · constructor
        · rintro ⟨e, h⟩
          rw [hco] at h
          exact absurd h (by simp)
        · intro hdisj
          rcases hdisj with h1 | h2 | ⟨basket, hb, hne⟩
          · exact absurd (.inl h1) hnotbad
          · exact absurd (.inr h2) hnotbad
          · injection hb with hb
            rw [← hb] at hne
            exact absurd htot hne
      · intro e h
        rw [hco] at h
        exact absurd h (by simp)
      · intro order h
        rw [hco] at h
        injection h with h
        exact h.symm
    · have htrue : (basketTotal b != total) = true := bne_iff_ne.mpr htot
      have hco : createOrder ps userId items total
          = .error (.badRequest "Неверная сумма заказа") := by
        unfold createOrder
        simp only [hbb, htrue]
        rfl
      refine ⟨?_, ?_, ?_⟩
      · constructor
        · intro _
          exact .inr (.inr ⟨b, rfl, htot⟩)
        · intro _
          exact ⟨_, hco⟩
      · intro e h
        rw [hco] at h
        injection h with h
        exact ⟨_, h.symm⟩
      · intro order h
        rw [hco] at h
        exact absurd h (by simp)

/-- Witness for C2 at the spec's example: items priced 10 and 20 with
declared total 25 are rejected; with declared total 30 the order is
created. -/
theorem C2_create_order_validation_witness :
    (∃ e, createOrder [⟨1, some 10, "a"⟩, ⟨2, some 20, "b"⟩] 9 [1, 2] 25
        = .error e)
    ∧ createOrder [⟨1, some 10, "a"⟩, ⟨2, some 20, "b"⟩] 9 [1, 2] 30
        = .ok { orderNumber := none, status := "new", totalAmount := 30,
                products := [1, 2], customer := 9, isNew := true } :=
  ⟨(C2_create_order_validation [⟨1, some 10, "a"⟩, ⟨2, some 20, "b"⟩]
      9 [1, 2] 25).1.mpr
      (.inr (.inr ⟨[⟨1, some 10, "a"⟩, ⟨2, some 20, "b"⟩], rfl, by decide⟩)),
   rfl⟩

/-- C8: the `toJSON` transform always strips the password (so two users
differing only in their password serialize identically), and the pre-save
hook stores exactly the one-way hash of the plaintext whenever the
password changed, leaving the document alone otherwise. -/
theorem C8_password_storage (bcryptHash : String → String) (u v : UserDoc)
    (hId : u.docId = v.docId) (hName : u.name = v.name)
    (hEmail : u.email = v.email) (hPhone : u.phone = v.phone)
    (hTokens : u.tokens = v.tokens) (hRoles : u.roles = v.roles) :
    (userToJSON u).password = none
    ∧ (hashingPassword bcryptHash true u).password = bcryptHash u.password
    ∧ hashingPassword bcryptHash false u = u
    ∧ userToJSON u = userToJSON v := by
  refine ⟨rfl, rfl, rfl, ?_⟩
  simp [userToJSON, toJSONTransform, retOfDoc, hId, hName, hEmail, hPhone,
    hTokens, hRoles]

/-- Witness for C8: two concrete users differing only in password. -/
theorem C8_password_storage_witness :
    (userToJSON ⟨1, "n", "e", "pw1", "p", [], []⟩).password = none
    ∧ (hashingPassword (fun _ => "H") true
        ⟨1, "n", "e", "pw1", "p", [], []⟩).password = "H"
    ∧ hashingPassword (fun _ => "H") false ⟨1, "n", "e", "pw1", "p", [], []⟩
        = ⟨1, "n", "e", "pw1", "p", [], []⟩
    ∧ userToJSON ⟨1, "n", "e", "pw1", "p", [], []⟩
        = userToJSON ⟨1, "n", "e", "pw2", "p", [], []⟩ :=
  C8_password_storage (fun _ => "H") ⟨1, "n", "e", "pw1", "p", [], []⟩
    ⟨1, "n", "e", "pw2", "p", [], []⟩ rfl rfl rfl rfl rfl rfl

/-- Saving writes `u` over the stored document with `u`'s id: a
subsequent lookup by that id finds `u`, provided the lookup found
something before. -/
theorem saveUser_find? (u x : RUser) (users : List RUser)
    (h : users.find? (fun v => v.uid == u.uid) = some x) :
    (saveUser u users).find? (fun v => v.uid == u.uid) = some u := by
  induction users with
  | nil => exact absurd h (by simp)
  | cons w rest ih =>
    by_cases hw : w.uid = u.uid
    · have hcons : saveUser u (w :: rest) = u :: saveUser u rest := by
        simp [saveUser, hw]
      rw [hcons]
      exact List.find?_cons_of_pos _ (by simp)
    · have hcons : saveUser u (w :: rest) = w :: saveUser u rest := by
        simp [saveUser, hw]
      rw [hcons, List.find?_cons_of_neg _ (by simpa using hw)]
      rw [List.find?_cons_of_neg _ (by simpa using hw)] at h
      exact ih h

/-- C1 (amended): after `refresh` with a verifying refresh token of an
existing user, the old token's fingerprint is gone from the user's token
list (the new fingerprint differing from the old) and the new one is
present; but a subsequent revocation or refresh presenting the old raw
token does NOT fail — `deleteRefreshTokenInUser` never checks that the
fingerprint was present, so it succeeds as a no-op whenever the token
still verifies and the user exists. -/
theorem C1_rotation_amended (verify : Nat → Option Nat) (fp : Nat → Nat)
    (users : List RUser) (user : RUser) (t newRaw : Nat)
    (hverify : verify t = some user.uid)
    (hfind : users.find? (fun v => v.uid == user.uid) = some user)
    (hfp : fp newRaw ≠ fp t) :
    ∃ user' users',
      refreshAccessToken verify fp newRaw (some t) users = .ok (user', users')
      ∧ fp t ∉ user'.tokens
      ∧ fp newRaw ∈ user'.tokens
      ∧ (deleteRefreshTokenInUser verify fp (some t) users').isOk = true := by
  have hdel : deleteRefreshTokenInUser verify fp (some t) users
      = .ok ({ user with tokens := user.tokens.filter (fun tok => tok != fp t) },
          saveUser { user with
            tokens := user.tokens.filter (fun tok => tok != fp t) } users) := by
    unfold deleteRefreshTokenInUser
    simp only [hverify, hfind]
  have href : refreshAccessToken verify fp newRaw (some t) users
      = .ok ({ user with
            tokens := user.tokens.filter (fun tok => tok != fp t)
                        ++ [fp newRaw] },
          saveUser { user with
              tokens := user.tokens.filter (fun tok => tok != fp t)
                          ++ [fp newRaw] }
            (saveUser { user with
              tokens := user.tokens.filter (fun tok => tok != fp t) } users))
      := by
    unfold refreshAccessToken
    simp only [hdel]
    rfl
  refine ⟨_, _, href, ?_, ?_, ?_⟩
  · intro hmem
    rcases List.mem_append.mp hmem with hl | hr
    · have := (List.mem_filter.mp hl).2
      simp at this
    · rw [List.mem_singleton] at hr
      exact hfp hr.symm
  · exact List.mem_append_right _ (List.mem_singleton.mpr rfl)
  · have hfind1 : (saveUser { user with
        tokens := user.tokens.filter (fun tok => tok != fp t) } users).find?
          (fun v => v.uid == user.uid) = some { user with
            tokens := user.tokens.filter (fun tok => tok != fp t) } :=
      saveUser_find?
        { user with tokens := user.tokens.filter (fun tok => tok != fp t) }
        user users hfind
    have hfind2 : (saveUser { user with
        tokens := user.tokens.filter (fun tok => tok != fp t)
                    ++ [fp newRaw] }
          (saveUser { user with
            tokens := user.tokens.filter (fun tok => tok != fp t) } users)).find?
          (fun v => v.uid == user.uid)
        = some { user with
            tokens := user.tokens.filter (fun tok => tok != fp t)
                        ++ [fp newRaw] } :=
      saveUser_find?
        { user with tokens := user.tokens.filter (fun tok => tok != fp t)
                                ++ [fp newRaw] }
        { user with tokens := user.tokens.filter (fun tok => tok != fp t) }
        (saveUser
          { user with tokens := user.tokens.filter (fun tok => tok != fp t) }
          users)
        hfind1
    unfold deleteRefreshTokenInUser
    simp only [hverify, hfind2]
    rfl

/-- Witness for the amended C1 at concrete inputs: user 1 holds the
fingerprint 110 of raw token 10; refreshing with new raw token 20 leaves
tokens `[120]`, and presenting the old raw token 10 again still succeeds. -/
theorem C1_rotation_amended_witness :
    ∃ user' users',
      refreshAccessToken verifyC fpC 20 (some 10) [⟨1, [110]⟩]
        = .ok (user', users')
      ∧ fpC 10 ∉ user'.tokens
      ∧ fpC 20 ∈ user'.tokens
      ∧ (deleteRefreshTokenInUser verifyC fpC (some 10) users').isOk = true :=
  C1_rotation_amended verifyC fpC [⟨1, [110]⟩] ⟨1, [110]⟩ 10 20 rfl rfl
    (by decide)

/-- Counterexample to C1 as stated: user 1's list holds exactly the
fingerprint of raw token 10; after a refresh rotates it out, presenting
the old raw token 10 to the revocation routine does not fail with
NotFound/Unauthorized — it succeeds, and a repeated refresh with the
stale token succeeds too. -/
theorem C1_rotation_counterexample :
    refreshAccessToken verifyC fpC 20 (some 10) [⟨1, [110]⟩]
      = .ok (⟨1, [120]⟩, [⟨1, [120]⟩])
    ∧ deleteRefreshTokenInUser verifyC fpC (some 10) [⟨1, [120]⟩]
      = .ok (⟨1, [120]⟩, [⟨1, [120]⟩])
    ∧ (refreshAccessToken verifyC fpC 30 (some 10) [⟨1, [120]⟩]).isOk
      = true :=
  ⟨rfl, rfl, rfl⟩

end BadServer
